import Mathlib

/-!
Shallow embedding of the `connpool` package: a capped per-destination
connection pool.  Go integers are modelled as `Int`; the unbuffered
handoff channel `connCh` is modelled by making each `Close` / wait-loop
step explicit about whether a rendezvous partner is present; the
underlying network dial is modelled by its outcome (`Except E C`, where
`C` stands for raw connection handles and `E` for transport errors).
-/

namespace Connpool

/-- `DefaultMaxConnsPerHost` is the default number of connections towards
an address (source constant, value 10). -/
def DefaultMaxConnsPerHost : Int := 10

/-- `ErrTimeout` represents that no connection could be grabbed from the
pool after the connection timeout. -/
structure ErrTimeout where
  deriving Repr, DecidableEq

/-- `func (err ErrTimeout) Error() string`. -/
def ErrTimeout.errorMsg (_ : ErrTimeout) : String := "dial timeout error"

/-- `func (err ErrTimeout) Temporary() bool { return true }`. -/
def ErrTimeout.temporary (_ : ErrTimeout) : Bool := true

/-- `func (err ErrTimeout) timeoutP() bool`, the `Timeout()` predicate:
`return true`. -/
def ErrTimeout.timeoutP (_ : ErrTimeout) : Bool := true

/-- The mutable state of a destination `pool`: the token counter
(`tokens int`, "cap minus the number of open connections").  The
unbuffered channel `connCh` carries no persistent state (rendezvous
semantics), so it does not appear in the record; its effect is modelled
at each operation. -/
structure Pool where
  tokens : Int
  deriving Repr, DecidableEq

/-- `func (p *pool) getToken() int`: under the pool lock, read `t :=
p.tokens`, decrement only when `t > 0`, and return the old value `t`. -/
def Pool.getToken (p : Pool) : Int × Pool :=
  let t := p.tokens
  if t > 0 then (t, ⟨p.tokens - 1⟩) else (t, p)

/-- `func (p *pool) putToken() int`: under the pool lock, increment
`p.tokens` unconditionally and return the old value. -/
def Pool.putToken (p : Pool) : Int × Pool :=
  (p.tokens, ⟨p.tokens + 1⟩)

/-- The wrapped connection `conn`: a raw connection handle plus a
back-reference to its pool (the pool is passed explicitly to the
operations of the model). -/
structure Conn (C : Type) where
  raw : C
  deriving Repr, DecidableEq

/-- `func (p *pool) maybeDial(network, addr string, d DialFunc)`:
if `p.getToken() != 0`, invoke the dial (whose outcome is the argument
`d`); on dial error put the token back and propagate the error; on
success wrap the raw connection.  If the guard fails, return the
`(nil, nil)` sentinel, here `Except.ok none`. -/
def Pool.maybeDial {C E : Type} (p : Pool) (d : Except E C) :
    Except E (Option (Conn C)) × Pool :=
  let r := p.getToken
  if r.1 ≠ 0 then
    match d with
    | Except.error e => (Except.error e, (r.2.putToken).2)
    | Except.ok c => (Except.ok (some ⟨c⟩), r.2)
  else
    (Except.ok none, r.2)

/-- The observable outcome of `func (c *conn) Close() error`. -/
structure CloseOut (C E : Type) where
  /-- the `error` value `Close` returns (`none` = Go `nil`) -/
  result : Option E
  /-- the connection sent over `connCh`, when the send succeeded -/
  delivered : Option (Conn C)
  /-- whether `c.Conn.Close()` (the physical close) ran -/
  physClosed : Bool
  /-- the pool state afterwards -/
  pool : Pool
  deriving Repr, DecidableEq

/-- `func (c *conn) Close() error`: a non-blocking send of `c` on
`c.pool.connCh`.  `receiverReady` says whether some goroutine is
concurrently receiving on the channel (the rendezvous condition for the
send to be chosen over `default`); `rawCloseErr` is the outcome of
`c.Conn.Close()` on the default path. -/
def Conn.close {C E : Type} (c : Conn C) (p : Pool) (receiverReady : Bool)
    (rawCloseErr : Option E) : CloseOut C E :=
  if receiverReady then
    { result := none, delivered := some c, physClosed := false, pool := p }
  else
    let r := p.putToken
    { result := rawCloseErr, delivered := none, physClosed := true,
      pool := r.2 }

/-- The `Dialer` registry: `conns map[netAndAddr]*pool` (`none` models
the Go `nil` map before lazy creation; the association list models the
map, most recent insertion first) and `MaxConnPerHost`. -/
structure Dialer where
  conns : Option (List ((String × String) × Pool))
  maxConnPerHost : Int
  deriving Repr, DecidableEq

/-- Lookup of `d.conns[netAndAddr{network, addr}]`. -/
def lookupConns : List ((String × String) × Pool) → String × String →
    Option Pool
  | [], _ => none
  | (k, p) :: rest, key => if k = key then some p else lookupConns rest key

/-- `func (d *Dialer) pool(network, addr string) *pool`: under the
registry lock, compute the effective maximum (`DefaultMaxConnsPerHost`
when `MaxConnPerHost == 0`), create the map if it is `nil`, and return
the existing pool for the key or insert a fresh one with `tokens = max`.
Returns the pool together with the updated registry. -/
def Dialer.poolFor (d : Dialer) (network addr : String) : Pool × Dialer :=
  let max := if d.maxConnPerHost = 0 then DefaultMaxConnsPerHost
             else d.maxConnPerHost
  let m := d.conns.getD []
  match lookupConns m (network, addr) with
  | some p => (p, { d with conns := some m })
  | none =>
      let p : Pool := ⟨max⟩
      (p, { d with conns := some (((network, addr), p) :: m) })

/-- One scheduler event inside the bounded wait loop of `Dial`: either a
connection arrives on `pool.connCh`, or the 10ms poll timer fires (with
the outcome the underlying dial would give at that instant), or the
overall deadline `toch` fires. -/
inductive WaitEvent (C E : Type) where
  | handoff (c : Conn C)
  | poll (d : Except E C)
  | deadline

/-- The value `Dial` returns: a connection, a propagated dial error, or
the timeout error. -/
inductive DialOut (C E : Type) where
  | conn (c : Conn C)
  | dialErr (e : E)
  | timeoutErr (t : ErrTimeout)
  deriving Repr, DecidableEq

/-- The `for { select { ... } }` loop of `Dial`, driven by the list of
scheduler events.  `none` as first component means the trace ended with
the loop still running. -/
def dialLoop {C E : Type} : Pool → List (WaitEvent C E) →
    Option (DialOut C E) × Pool
  | p, [] => (none, p)
  | p, WaitEvent.handoff c :: _ => (some (DialOut.conn c), p)
  | p, WaitEvent.deadline :: _ => (some (DialOut.timeoutErr ⟨⟩), p)
  | p, WaitEvent.poll d :: rest =>
      match p.maybeDial d with
      | (Except.error e, p1) => (some (DialOut.dialErr e), p1)
      | (Except.ok (some c), p1) => (some (DialOut.conn c), p1)
      | (Except.ok none, p1) => dialLoop p1 rest

/-- `func (d *Dialer) Dial(network, addr string) (net.Conn, error)`:
resolve the pool, try `maybeDial` once (outcome `d0`), return on error
or connection, otherwise enter the bounded wait loop.  The second
component is the pool's state afterwards (the registry keeps pointing at
the same pool object). -/
def Dialer.dial {C E : Type} (dlr : Dialer) (network addr : String)
    (d0 : Except E C) (evs : List (WaitEvent C E)) :
    Option (DialOut C E) × Pool :=
  let p := (dlr.poolFor network addr).1
  match p.maybeDial d0 with
  | (Except.error e, p1) => (some (DialOut.dialErr e), p1)
  | (Except.ok (some c), p1) => (some (DialOut.conn c), p1)
  | (Except.ok none, p1) => dialLoop p1 evs

/-! ### A per-destination system model for the token invariant

Events a destination pool can experience, built from the embedded
operations: a `maybeDial` attempt with a given underlying dial outcome,
and a `Close` of one of the currently open token-holding connections. -/

/-- One operation on a destination pool. -/
inductive PoolEvent (C E : Type) where
  | dialAttempt (d : Except E C)
  | close (c : Conn C) (receiverReady : Bool) (rawCloseErr : Option E)

/-- A pool together with the number of token-holding open connections
(each was produced by a successful `maybeDial` and not yet physically
closed). -/
structure SysState where
  pool : Pool
  openConns : Nat
  deriving Repr, DecidableEq

/-- One step of the destination-pool system.  A `close` event is legal
only while a token-holding open connection exists (each connection is
closed at most once); a handoff keeps the connection open in the hands
of the receiver, a physical close retires it. -/
def step {C E : Type} (s : SysState) : PoolEvent C E → Option SysState
  | PoolEvent.dialAttempt d =>
      match s.pool.maybeDial d with
      | (Except.ok (some _), p1) => some ⟨p1, s.openConns + 1⟩
      | (Except.ok none, p1) => some ⟨p1, s.openConns⟩
      | (Except.error _, p1) => some ⟨p1, s.openConns⟩
  | PoolEvent.close c ready err =>
      match s.openConns with
      | 0 => none
      | Nat.succ n =>
          let out := Conn.close c s.pool ready err
          some ⟨out.pool, if out.physClosed then n else Nat.succ n⟩

/-- Run a sequence of pool events from a state, rejecting traces that
close a connection that is not open. -/
def run {C E : Type} : SysState → List (PoolEvent C E) → Option SysState
  | s, [] => some s
  | s, e :: rest =>
      match step s e with
      | none => none
      | some s1 => run s1 rest

instance {E C : Type} [DecidableEq E] [DecidableEq C] :
    DecidableEq (Except E C) := fun a b =>
  match a, b with
  | Except.ok x, Except.ok y =>
      if h : x = y then isTrue (by rw [h])
      else isFalse (by intro hh; cases hh; exact h rfl)
  | Except.error x, Except.error y =>
      if h : x = y then isTrue (by rw [h])
      else isFalse (by intro hh; cases hh; exact h rfl)
  | Except.ok _, Except.error _ => isFalse (by intro hh; cases hh)
  | Except.error _, Except.ok _ => isFalse (by intro hh; cases hh)

/-! ### Helper lemmas -/

/-- Complete characterization of `maybeDial`, read off the source: the
dial runs whenever `getToken` returns a nonzero value; the counter is
decremented only when it was strictly positive; a failed dial puts one
token back. -/
theorem maybeDial_eq {C E : Type} (p : Pool) (d : Except E C) :
    p.maybeDial d =
      if p.tokens = 0 then (Except.ok none, p)
      else
        match d with
        | Except.error e =>
            (Except.error e,
             ⟨if 0 < p.tokens then p.tokens else p.tokens + 1⟩)
        | Except.ok c =>
            (Except.ok (some ⟨c⟩),
             ⟨if 0 < p.tokens then p.tokens - 1 else p.tokens⟩) := by
  obtain ⟨t⟩ := p
  by_cases h0 : t = 0
  · subst h0
    cases d <;> simp [Pool.maybeDial, Pool.getToken]
  · by_cases hpos : 0 < t <;>
      cases d <;>
        simp [Pool.maybeDial, Pool.getToken, Pool.putToken, h0, hpos,
          Prod.ext_iff, Pool.mk.injEq]

/-! ### Claim theorems -/

/-- C2: if `Close` runs while some goroutine is receiving on the pool's
handoff channel, it returns `nil`, delivers that exact wrapped
connection to the receiver, does not physically close the raw
connection, and leaves the token count unchanged. -/
theorem close_with_receiver {C E : Type} (c : Conn C) (p : Pool)
    (err : Option E) :
    Conn.close c p true err =
      { result := none, delivered := some c, physClosed := false,
        pool := p } := rfl

/-- C3: if `Close` runs while no receiver is ready on the handoff
channel, the token count is incremented by exactly one, the raw
connection is physically closed, and `Close` returns exactly the raw
close's error, whatever it is. -/
theorem close_without_receiver {C E : Type} (c : Conn C) (p : Pool)
    (err : Option E) :
    (Conn.close c p false err).result = err ∧
    (Conn.close c p false err).physClosed = true ∧
    (Conn.close c p false err).delivered = none ∧
    (Conn.close c p false err).pool.tokens = p.tokens + 1 :=
  ⟨rfl, rfl, rfl, rfl⟩

/-- C4: if a token is acquired (the count was strictly positive, so
`getToken` decremented it) and the underlying dial fails, `maybeDial`
returns that dial error verbatim with no connection, and the token
count afterwards equals the count before the call. -/
theorem maybeDial_error_releases {C E : Type} (p : Pool) (e : E)
    (h : 0 < p.tokens) :
    Pool.maybeDial (C := C) p (Except.error e) = (Except.error e, p) := by
  rw [maybeDial_eq]
  obtain ⟨t⟩ := p
  have h1 : t ≠ 0 := by
    intro h0
    rw [h0] at h
    exact lt_irrefl 0 h
  simp [h1, show 0 < t from h]

/-- Witness for C4 at `tokens = 3` and a concrete dial error. -/
theorem maybeDial_error_releases_w :
    Pool.maybeDial (C := Nat) (⟨3⟩ : Pool) (Except.error "boom") =
      (Except.error "boom", (⟨3⟩ : Pool)) :=
  maybeDial_error_releases ⟨3⟩ "boom" (by norm_num)

/-- C5, counterexample: at token count `-1` (not strictly positive) and
a succeeding underlying dial, `maybeDial` does not return the sentinel;
it invokes the dial and returns a connection. -/
theorem maybeDial_gate_cex :
    ¬ ((Pool.mk (-1)).tokens ≤ 0 →
        Pool.maybeDial (E := String) (⟨-1⟩ : Pool) (Except.ok (0 : Nat)) =
          (Except.ok none, (⟨-1⟩ : Pool))) := by
  decide

/-- C5, amended: `maybeDial` invokes the underlying dial whenever the
token count is nonzero (not only when strictly positive), decrementing
the count only when it is strictly positive; when the count is zero it
returns the (no connection, no error) sentinel without modifying the
count; on a failed dial the count is incremented back (a net increment
when it was negative). -/
theorem maybeDial_gate_amended {C E : Type} (p : Pool) (d : Except E C) :
    p.maybeDial d =
      if p.tokens = 0 then (Except.ok none, p)
      else
        match d with
        | Except.error e =>
            (Except.error e,
             ⟨if 0 < p.tokens then p.tokens else p.tokens + 1⟩)
        | Except.ok c =>
            (Except.ok (some ⟨c⟩),
             ⟨if 0 < p.tokens then p.tokens - 1 else p.tokens⟩) :=
  maybeDial_eq p d

/-- C7: `putToken` increments unconditionally, with no upper-bound
check: from any count `m` (in particular `m` = the configured maximum)
one release yields `m + 1`, and a double release yields `m + 2`,
strictly above `m`. -/
theorem putToken_unbounded (m : Int) :
    ((Pool.putToken ⟨m⟩).2).tokens = m + 1 ∧
    ((Pool.putToken (Pool.putToken ⟨m⟩).2).2).tokens = m + 2 ∧
    m < ((Pool.putToken (Pool.putToken ⟨m⟩).2).2).tokens := by
  refine ⟨rfl, by simp [Pool.putToken]; ring, ?_⟩
  simp [Pool.putToken]
  omega

/-- Helper: with the token count stuck at zero, every poll retries
`maybeDial`, obtains the sentinel, and leaves the pool unchanged, so a
trace of polls ending at the deadline yields the timeout error. -/
theorem dialLoop_no_tokens {C E : Type} (ds : List (Except E C))
    (p : Pool) (h : p.tokens = 0) :
    dialLoop p (ds.map WaitEvent.poll ++ [WaitEvent.deadline]) =
      (some (DialOut.timeoutErr ⟨⟩), p) := by
  induction ds generalizing p with
  | nil => simp [dialLoop]
  | cons d rest ih =>
      rw [List.map_cons, List.cons_append]
      have hm : p.maybeDial d = (Except.ok none, p) := by
        rw [maybeDial_eq, if_pos h]
      simp only [dialLoop, hm]
      exact ih p h

/-- C6: when the bounded wait in `Dial` exhausts its deadline (the
pool's tokens stay at zero through every poll and no handoff arrives
before the deadline fires), `Dial` returns the dedicated timeout error,
which answers `true` to both `Temporary()` and `Timeout()`. -/
theorem dial_deadline_timeout {C E : Type} (network addr : String)
    (ps : Pool) (hps : ps.tokens = 0) (dlr : Dialer)
    (hc : dlr.conns = some [((network, addr), ps)])
    (d0 : Except E C) (ds : List (Except E C)) :
    (dlr.dial network addr d0
        (ds.map WaitEvent.poll ++ [WaitEvent.deadline])).1 =
      some (DialOut.timeoutErr ⟨⟩) ∧
    ErrTimeout.temporary ⟨⟩ = true ∧ ErrTimeout.timeoutP ⟨⟩ = true := by
  refine ⟨?_, rfl, rfl⟩
  have hpf : (dlr.poolFor network addr).1 = ps := by
    simp [Dialer.poolFor, hc, lookupConns]
  have hm : ps.maybeDial d0 = (Except.ok none, ps) := by
    rw [maybeDial_eq, if_pos hps]
  simp only [Dialer.dial, hpf, hm]
  rw [dialLoop_no_tokens ds ps hps]

/-- Witness for C6: a registry holding one exhausted pool, one poll,
then the deadline. -/
theorem dial_deadline_timeout_w :
    ((Dialer.mk (some [(("tcp", "a"), ⟨0⟩)]) 1).dial "tcp" "a"
        (Except.error "refused")
        (([Except.error "refused"] : List (Except String Nat)).map
            WaitEvent.poll ++ [WaitEvent.deadline])).1 =
      some (DialOut.timeoutErr ⟨⟩) ∧
    ErrTimeout.temporary ⟨⟩ = true ∧ ErrTimeout.timeoutP ⟨⟩ = true :=
  dial_deadline_timeout "tcp" "a" ⟨0⟩ rfl
    (Dialer.mk (some [(("tcp", "a"), ⟨0⟩)]) 1) rfl
    (Except.error "refused") [Except.error "refused"]

/-- C8: the registry creates at most one pool per (network, addr) key:
on a fresh (nil) map the first call creates the map and a pool whose
token count is `MaxConnPerHost`, or `DefaultMaxConnsPerHost = 10` when
that is zero; any call that finds the key returns the stored pool and
leaves the registry unchanged. -/
theorem pool_registry_once (d : Dialer) (network addr : String) :
    (d.conns = none →
      (d.poolFor network addr).1.tokens =
        (if d.maxConnPerHost = 0 then DefaultMaxConnsPerHost
         else d.maxConnPerHost) ∧
      (d.poolFor network addr).2.conns =
        some [((network, addr), (d.poolFor network addr).1)]) ∧
    (∀ m, d.conns = some m → lookupConns m (network, addr) = none →
      (d.poolFor network addr).1.tokens =
        (if d.maxConnPerHost = 0 then DefaultMaxConnsPerHost
         else d.maxConnPerHost) ∧
      (d.poolFor network addr).2.conns =
        some (((network, addr), (d.poolFor network addr).1) :: m)) ∧
    (∀ m p, d.conns = some m → lookupConns m (network, addr) = some p →
      d.poolFor network addr = (p, d)) := by
  refine ⟨?_, ?_, ?_⟩
  · intro h
    simp [Dialer.poolFor, h, lookupConns]
  · intro m hm hp
    simp [Dialer.poolFor, hm, hp]
  · intro m p hm hp
    obtain ⟨cs, mx⟩ := d
    simp only at hm
    subst hm
    simp [Dialer.poolFor, hp]

/-- Witness for C8: a fresh registry with unset maximum creates a pool
with 10 tokens; a registry holding only another key creates a second
pool with the configured maximum; a registry already holding the key
returns that pool and is unchanged. -/
theorem pool_registry_once_w :
    ((Dialer.mk none 0).poolFor "tcp" "a").1.tokens = 10 ∧
    ((Dialer.mk (some [(("tcp", "b"), ⟨4⟩)]) 7).poolFor "tcp" "a").1.tokens
      = 7 ∧
    (Dialer.mk (some [(("tcp", "a"), ⟨4⟩)]) 7).poolFor "tcp" "a" =
      (⟨4⟩, Dialer.mk (some [(("tcp", "a"), ⟨4⟩)]) 7) := by
  refine ⟨?_, ?_, ?_⟩
  · have h := ((pool_registry_once (Dialer.mk none 0) "tcp" "a").1 rfl).1
    simpa [DefaultMaxConnsPerHost] using h
  · have h := ((pool_registry_once (Dialer.mk (some [(("tcp", "b"), ⟨4⟩)]) 7)
      "tcp" "a").2.1 [(("tcp", "b"), ⟨4⟩)] rfl (by simp [lookupConns])).1
    simpa using h
  · exact (pool_registry_once (Dialer.mk (some [(("tcp", "a"), ⟨4⟩)]) 7)
      "tcp" "a").2.2 [(("tcp", "a"), ⟨4⟩)] ⟨4⟩ rfl (by simp [lookupConns])

/-- C9: when the destination's pool has a strictly positive token count
and the underlying dial succeeds, `Dial` returns the wrapped connection
immediately — the same result for every wait-loop trace, i.e. without
entering the bounded wait loop. -/
theorem dial_immediate_success {C E : Type} (dlr : Dialer)
    (network addr : String) (c : C) (evs : List (WaitEvent C E))
    (h : 0 < (dlr.poolFor network addr).1.tokens) :
    (dlr.dial network addr (Except.ok c) evs).1 =
      some (DialOut.conn ⟨c⟩) := by
  have hm := maybeDial_eq (dlr.poolFor network addr).1
    (Except.ok c : Except E C)
  rw [if_neg (by omega)] at hm
  simp only [Dialer.dial, hm]

/-- Witness for C9: a fresh dialer with maximum 1, succeeding dial,
empty wait trace. -/
theorem dial_immediate_success_w :
    ((Dialer.mk none 1).dial "tcp" "a" (Except.ok (0 : Nat))
        ([] : List (WaitEvent Nat String))).1 =
      some (DialOut.conn ⟨0⟩) :=
  dial_immediate_success (Dialer.mk none 1) "tcp" "a" 0 [] (by decide)

/-- C10: with a strictly negative `MaxConnPerHost`, the cap is not
enforced: the pool is created with that negative token count,
`maybeDial` treats the nonzero negative count as permission and dials
without decrementing it (pool unchanged on success), and every `Dial`
whose underlying dial succeeds returns a new connection, whatever the
wait trace. -/
theorem negative_max_uncapped {C E : Type} (dlr : Dialer)
    (hneg : dlr.maxConnPerHost < 0) (hc : dlr.conns = none)
    (network addr : String) (c : C) (evs : List (WaitEvent C E)) :
    (dlr.poolFor network addr).1.tokens = dlr.maxConnPerHost ∧
    Pool.maybeDial (E := E) (dlr.poolFor network addr).1 (Except.ok c) =
      (Except.ok (some ⟨c⟩), (dlr.poolFor network addr).1) ∧
    (dlr.dial network addr (Except.ok c) evs).1 =
      some (DialOut.conn ⟨c⟩) := by
  have ht : (dlr.poolFor network addr).1.tokens = dlr.maxConnPerHost := by
    simp [Dialer.poolFor, hc, lookupConns, show dlr.maxConnPerHost ≠ 0 by
      omega]
  have hlt : ¬ 0 < (dlr.poolFor network addr).1.tokens := by omega
  have hm : Pool.maybeDial (E := E) (dlr.poolFor network addr).1
      (Except.ok c) =
      (Except.ok (some ⟨c⟩), (dlr.poolFor network addr).1) := by
    rw [maybeDial_eq, if_neg (by omega)]
    simp [hlt]
  exact ⟨ht, hm, by simp only [Dialer.dial, hm]⟩

/-- Witness for C10: `MaxConnPerHost = -1`, fresh registry, succeeding
dial, empty wait trace. -/
theorem negative_max_uncapped_w :
    (((Dialer.mk none (-1)).poolFor "tcp" "a").1.tokens = -1) ∧
    Pool.maybeDial (E := String)
        ((Dialer.mk none (-1)).poolFor "tcp" "a").1 (Except.ok (0 : Nat)) =
      (Except.ok (some ⟨0⟩), ((Dialer.mk none (-1)).poolFor "tcp" "a").1) ∧
    ((Dialer.mk none (-1)).dial "tcp" "a" (Except.ok (0 : Nat))
        ([] : List (WaitEvent Nat String))).1 =
      some (DialOut.conn ⟨0⟩) :=
  negative_max_uncapped (Dialer.mk none (-1)) (by decide) rfl "tcp" "a" 0 []

/-- Helper: one step preserves the accounting invariant
`0 ≤ tokens ∧ tokens + openConns = M`. -/
theorem step_preserves {C E : Type} (M : Int) (s s1 : SysState)
    (e : PoolEvent C E)
    (hinv : 0 ≤ s.pool.tokens ∧ s.pool.tokens + (s.openConns : Int) = M)
    (h : step s e = some s1) :
    0 ≤ s1.pool.tokens ∧ s1.pool.tokens + (s1.openConns : Int) = M := by
  obtain ⟨h1, h2⟩ := hinv
  cases e with
  | dialAttempt d =>
      rw [step] at h
      rw [maybeDial_eq] at h
      by_cases h0 : s.pool.tokens = 0
      · rw [if_pos h0] at h
        simp only at h
        cases h
        exact ⟨h1, h2⟩
      · have hpos : 0 < s.pool.tokens := lt_of_le_of_ne h1 (Ne.symm h0)
        rw [if_neg h0] at h
        cases d with
        | error e0 =>
            simp only [if_pos hpos] at h
            cases h
            exact ⟨h1, h2⟩
        | ok c =>
            simp only [if_pos hpos] at h
            cases h
            refine ⟨?_, ?_⟩
            · show 0 ≤ s.pool.tokens - 1
              omega
            · show s.pool.tokens - 1 + ((s.openConns + 1 : Nat) : Int) = M
              push_cast
              omega
  | close c ready err =>
      rw [step] at h
      cases hoc : s.openConns with
      | zero => rw [hoc] at h; cases h
      | succ n =>
          rw [hoc] at h
          cases ready with
          | true =>
              have hcl : Conn.close (E := E) c s.pool true err =
                  { result := none, delivered := some c,
                    physClosed := false, pool := s.pool } := rfl
              rw [hcl] at h
              cases h
              refine ⟨h1, ?_⟩
              show s.pool.tokens + ((Nat.succ n : Nat) : Int) = M
              rw [hoc] at h2
              exact h2
          | false =>
              have hcl : Conn.close (E := E) c s.pool false err =
                  { result := err, delivered := none,
                    physClosed := true, pool := (s.pool.putToken).2 } := rfl
              rw [hcl] at h
              cases h
              rw [hoc] at h2
              refine ⟨?_, ?_⟩
              · show 0 ≤ s.pool.tokens + 1
                omega
              · show s.pool.tokens + 1 + ((n : Nat) : Int) = M
                push_cast at h2 ⊢
                omega

/-- Helper: `run` preserves the accounting invariant along any legal
trace. -/
theorem run_preserves {C E : Type} (M : Int) (evs : List (PoolEvent C E)) :
    ∀ s s1 : SysState,
      (0 ≤ s.pool.tokens ∧ s.pool.tokens + (s.openConns : Int) = M) →
      run s evs = some s1 →
      0 ≤ s1.pool.tokens ∧ s1.pool.tokens + (s1.openConns : Int) = M := by
  induction evs with
  | nil =>
      intro s s1 hinv h
      rw [run] at h
      cases h
      exact hinv
  | cons e rest ih =>
      intro s s1 hinv h
      rw [run] at h
      cases hs : step (C := C) (E := E) s e with
      | none => rw [hs] at h; cases h
      | some s2 =>
          rw [hs] at h
          exact ih s2 s1 (step_preserves M s s2 e hinv hs) h

/-- C1: starting from a pool created with a non-negative maximum `M`
(token count `M`, no open connections), any sequence of dial attempts
and closes — each connection closed at most once — keeps the token
count within `0 ≤ tokens ≤ M`, equivalently the number of token-holding
open connections never exceeds `M`. -/
theorem token_count_bounded {C E : Type} (M : Int) (hM : 0 ≤ M)
    (evs : List (PoolEvent C E)) (s : SysState)
    (h : run ⟨⟨M⟩, 0⟩ evs = some s) :
    0 ≤ s.pool.tokens ∧ s.pool.tokens ≤ M := by
  have hinv : 0 ≤ (SysState.mk ⟨M⟩ 0).pool.tokens ∧
      (SysState.mk ⟨M⟩ 0).pool.tokens +
        ((SysState.mk ⟨M⟩ 0).openConns : Int) = M := by
    constructor
    · exact hM
    · simp
  have hres := run_preserves M evs ⟨⟨M⟩, 0⟩ s hinv h
  refine ⟨hres.1, ?_⟩
  have hop : (0 : Int) ≤ (s.openConns : Int) := Int.ofNat_nonneg _
  omega

/-- Witness for C1: maximum 1, one successful dial followed by one
physical close, ending back at one token and zero open connections. -/
theorem token_count_bounded_w :
    (0 : Int) ≤ 1 ∧
    run (C := Nat) (E := String) ⟨⟨1⟩, 0⟩
      [PoolEvent.dialAttempt (Except.ok 0),
       PoolEvent.close ⟨0⟩ false none] = some ⟨⟨1⟩, 0⟩ ∧
    ((0 : Int) ≤ (1 : Int) ∧ (1 : Int) ≤ 1) :=
  ⟨by norm_num, by decide,
   token_count_bounded (C := Nat) (E := String) 1 (by norm_num)
     [PoolEvent.dialAttempt (Except.ok 0),
      PoolEvent.close ⟨0⟩ false none] ⟨⟨1⟩, 0⟩ (by decide)⟩

end Connpool
